import Mathlib

/-!
A shallow embedding of the morticia porting/conflict-resolution engine and
change-history index (sources under `src/`): `src/git.py`, `src/morticia.py`,
`src/status.py`, `src/ui/pages.py`, `src/bot.py`, `src/model.py`.

Python strings are modelled as `String` where only equality and concatenation
matter, and as `List Char` where length arithmetic, slicing, or substring
search is involved (a Lean `String` is a wrapper around `List Char`).
Machine-level concerns (subprocess I/O, the ORM, Discord) are modelled by
explicit state passing: every external interaction enters as an explicit
parameter (e.g. a trace of git-command outcomes) and leaves as data in the
result (e.g. a list of emitted effects).
-/

namespace Morticia

/-- Python `needle in haystack` on strings: substring containment,
over `List Char`. -/
def containsSub (pat : List Char) : List Char → Bool
  | [] => pat.isPrefixOf []
  | c :: rest => pat.isPrefixOf (c :: rest) || containsSub pat rest

/-- Number of (possibly overlapping) occurrences of `pat` in the text;
used only to state the spec's "number of distinct occurrences" bound. -/
def countOcc (pat : List Char) : List Char → Nat
  | [] => 0
  | c :: rest => (if pat.isPrefixOf (c :: rest) then 1 else 0) + countOcc pat rest

/-- Python `str.replace(old, new)` (all occurrences, non-overlapping),
for a nonempty `old`; on an empty `old` this model returns the string
unchanged (the code always passes a nonempty credential token). -/
def pyReplace (old new : List Char) : List Char → List Char
  | [] => []
  | c :: rest =>
    if h : old ≠ [] ∧ old.isPrefixOf (c :: rest) then
      new ++ pyReplace old new ((c :: rest).drop old.length)
    else
      c :: pyReplace old new rest
  termination_by s => s.length
  decreasing_by
    · simp only [List.length_drop, List.length_cons]
      have : 0 < old.length := List.length_pos.mpr h.1
      omega
    · simp

/-- Python `str.lower()`, restricted to its ASCII behaviour (`Char.toLower`
only folds `A`–`Z`, which matches Python on the ASCII identifiers at play). -/
def pyLower (s : String) : String := ⟨s.data.map Char.toLower⟩

theorem pyLower_append (a b : String) :
    pyLower (a ++ b) = pyLower a ++ pyLower b := by
  simp [pyLower, String.ext_iff]

/-! ### RepoId (`src/git.py` lines 12–42) -/

def GITHUB_URL : String := "https://github.com/"

/-- Python `RepoId.__init__` stores both strings verbatim: no case normalization
happens at construction, and the class defines no `__eq__`. -/
structure RepoId where
  org_name : String
  repo_name : String
  deriving DecidableEq, Repr

/-- Python `RepoId.__repr__`: `f"{org}/{repo}".lower()`. -/
def RepoId.repr (r : RepoId) : String :=
  pyLower (r.org_name ++ "/" ++ r.repo_name)

/-- Python `RepoId.url`: `f"{GITHUB_URL}{str(self)}/"`. -/
def RepoId.url (r : RepoId) : String :=
  GITHUB_URL ++ r.repr ++ "/"

/-- Collapse runs of `-` to a single `-` (part of the `slugify` model). -/
def collapseDashes : List Char → List Char
  | [] => []
  | '-' :: '-' :: rest => collapseDashes ('-' :: rest)
  | c :: rest => c :: collapseDashes rest

/-- Model of the `python-slugify` library function used by `RepoId.slug`:
lowercase, replace non-alphanumeric characters by `-`, collapse runs of `-`,
trim `-` from both ends. -/
def slugify (s : String) : String :=
  ⟨((collapseDashes (s.data.map
      (fun c => if c.isAlphanum then c.toLower else '-'))).dropWhile
        (· = '-')).reverse.dropWhile (· = '-') |>.reverse⟩

/-- Python `RepoId.slug`: `slugify(str(self))`. -/
def RepoId.slug (r : RepoId) : String := slugify r.repr

/-! ### Conflict model (`src/git.py` lines 95–146, `src/ui/pages.py`) -/

/-- Python `ResolutionType` exactly as declared in `src/git.py`: the enum has the
four members `UNSELECTED = -1`, `MANUAL = 0`, `OURS = 1`, `THEIRS = 2`
(there is no `DEFERRED` member). -/
inductive ResolutionType where
  | unselected
  | manual
  | ours
  | theirs
  deriving DecidableEq, Repr

/-- One `MergeConflict` object. `repoPath` stands for the `repo.path` the
constructor receives through its `repo` argument. -/
structure MergeConflict where
  repoPath : String
  path : String
  content : String
  diff : String
  proposed_content : String
  resolution : ResolutionType
  deriving DecidableEq, Repr

/-- Python `MergeConflict.__init__(repo, path, content, diff)`: stores the
arguments, then sets `proposed_content = content` and
`resolution = ResolutionType.UNSELECTED`. -/
def MergeConflict.init (repoPath path content diff : String) : MergeConflict :=
  { repoPath := repoPath, path := path, content := content, diff := diff
    proposed_content := content, resolution := .unselected }

/-- Python `MergeConflict.file_path`: `f"{repo.path}/{path}"`. -/
def MergeConflict.file_path (c : MergeConflict) : String :=
  c.repoPath ++ "/" ++ c.path

/-- An observable side effect of `MergeConflict.resolve`: a working-tree
file write or an issued git command. -/
inductive GitEffect where
  | writeFile (path content : String)
  | gitCmd (cmd : String)
  deriving DecidableEq, Repr

/-- Python `MergeConflict.resolve`: `match` over the resolution. `MANUAL` writes
`proposed_content` to the file then stages it; `OURS`/`THEIRS` run
`git checkout --ours|--theirs <path>` then stage; `UNSELECTED` raises
`Exception("This should not happen.")` before any effect is performed. -/
def MergeConflict.resolve (c : MergeConflict) : Except String (List GitEffect) :=
  match c.resolution with
  | .manual =>
    .ok [.writeFile c.file_path c.proposed_content, .gitCmd ("git add " ++ c.path)]
  | .ours =>
    .ok [.gitCmd ("git checkout --ours " ++ c.path), .gitCmd ("git add " ++ c.path)]
  | .theirs =>
    .ok [.gitCmd ("git checkout --theirs " ++ c.path), .gitCmd ("git add " ++ c.path)]
  | .unselected => .error "This should not happen."

/-- Python `MergeConflictsContext.num_remaining_conflicts` (`src/ui/pages.py`):
tally of conflicts whose resolution is still `UNSELECTED`. -/
def num_remaining_conflicts (conflicts : List MergeConflict) : Nat :=
  conflicts.foldl (fun tally c => if c.resolution ≠ .unselected then tally else tally + 1) 0

/-- Python `MergeConflictsContext.update_continue_button`: the continue button's
`disabled` flag is set to `num_remaining_conflicts() > 0`. -/
def update_continue_button_disabled (conflicts : List MergeConflict) : Bool :=
  num_remaining_conflicts conflicts > 0

/-- The four per-conflict buttons of `MergeConflictView`
(`src/ui/pages.py` lines 144–170). -/
inductive ConflictButton where
  | edit
  | ours
  | theirs
  | fixLater
  deriving DecidableEq, Repr

/-- Effect of pressing a per-conflict button on the conflict's state:
`Edit` → `take_manual()`, `Ours` → `take_ours()`, `Theirs` → `take_theirs()`.
`Fix it later` calls `self.conflict.as_is()` — but `MergeConflict` in
`src/git.py` defines no `as_is` method, so the call raises
`AttributeError` and the conflict's resolution is left unchanged. -/
def pressButton (c : MergeConflict) : ConflictButton → Except String MergeConflict
  | .edit => .ok { c with resolution := .manual }
  | .ours => .ok { c with resolution := .ours }
  | .theirs => .ok { c with resolution := .theirs }
  | .fixLater => .error "AttributeError: MergeConflict object has no attribute as_is"

/-! ### Exception taxonomy (`src/git.py` lines 74–156) -/

/-- The three exception classes of the git module.  `GitCommandException`
and `MergeConflictsException` each subclass `CommandException` directly.  -/
inductive ExcClass where
  | commandException
  | gitCommandException
  | mergeConflictsException
  deriving DecidableEq, Repr

/-- Python `except C` matching: an instance of class `a` is caught by a
handler for class `b` iff `a` is `b` or a subclass of `b`. -/
def ExcClass.caughtBy : ExcClass → ExcClass → Bool
  | a, .commandException => (a == .commandException) || (a == .gitCommandException)
      || (a == .mergeConflictsException)
  | a, .gitCommandException => a == .gitCommandException
  | a, .mergeConflictsException => a == .mergeConflictsException

/-- An exception value: its runtime class plus the `CommandException`
payload, and (for `MergeConflictsException`) the continued subcommand and
the extracted conflict list. -/
structure Exc where
  cls : ExcClass
  stdout : String
  stderr : String
  exit_code : Int
  command : String
  conflicts : List MergeConflict
  deriving DecidableEq, Repr

/-- The conflict marker the naive loop scans for. -/
def deletedMarker : List Char := "deleted in HEAD and modified in".data

def hasDeletedMarker (e : Exc) : Bool := containsSub deletedMarker e.stdout.data

/-- Python `"CONFLICT" in stdout` — the conflict-detection test of `apply_patch`,
`cherry_pick` and `continue_merge`. -/
def hasConflictMarker (s : String) : Bool := containsSub "CONFLICT".data s.data

/-- Outcome of an underlying git subprocess call made through
`LocalRepo.git`: `none` on exit code 0, otherwise the failure payload.
`git()` (`src/git.py` lines 220–232) catches the `CommandException` and
raises it re-wrapped as a `GitCommandException` — it never raises any
other exception class. -/
structure CmdFail where
  stdout : String
  stderr : String
  exit_code : Int
  deriving DecidableEq, Repr

/-- The exception `LocalRepo.git` raises for a failed subprocess: always a
`GitCommandException` carrying the command's output. -/
def git_exc (f : CmdFail) : Exc :=
  { cls := .gitCommandException, stdout := f.stdout, stderr := f.stderr
    exit_code := f.exit_code, command := "", conflicts := [] }

/-! ### Naive conflict resolution (`src/git.py` lines 173–188)

The loop's interaction with git is made explicit: each iteration stages all
files and re-issues the `--continue` command via `self.git`, whose outcome
is the next entry of the `trace` parameter — `none` for success, `some f`
for a non-zero exit that `git()` raises as the `GitCommandException`
`git_exc f`.  The loop body's handler is `except MergeConflictsException`;
Python's class matching decides whether the raised exception is caught
(looping with `e = e2`) or propagates out of the function.  Since `git_exc`
failures are `GitCommandException`s — a sibling of `MergeConflictsException`,
not a subclass — the handler never matches and the arm is dead: the loop
performs at most one continue attempt.  The result pairs the
raised-or-returned outcome with the number of continue attempts performed;
`none` means the supplied trace was too short to decide the run. -/

def naive_conflict_resolution (e : Exc) (trace : List (Option CmdFail)) :
    Option (Except Exc Bool × Nat) :=
  if hasDeletedMarker e then
    match trace with
    | [] => none
    | none :: _ => some (.ok true, 1)
    | some f :: rest =>
      if (git_exc f).cls.caughtBy .mergeConflictsException then
        (naive_conflict_resolution (git_exc f) rest).map (fun p => (p.1, p.2 + 1))
      else
        some (.error (git_exc f), 1)
  else
    some (.error e, 0)

/-! ### Patch application (`src/git.py` lines 255–289) -/

/-- Python `LocalRepo.apply_patch`: on a `GitCommandException` whose stdout lacks
`"CONFLICT"` the exception propagates unchanged; otherwise a
`MergeConflictsException` for subcommand `"am"` is raised carrying the
enumerated conflicts. -/
def apply_patch (outcome : Option CmdFail) (conflicts : List MergeConflict) :
    Option Exc :=
  outcome.map (fun f =>
    if hasConflictMarker f.stdout then
      { cls := .mergeConflictsException, stdout := f.stdout, stderr := f.stderr
        exit_code := f.exit_code, command := "am", conflicts := conflicts }
    else
      { cls := .gitCommandException, stdout := f.stdout, stderr := f.stderr
        exit_code := f.exit_code, command := "", conflicts := [] })

/-- Python `LocalRepo.apply_patch_conflict_resolving`: `try apply_patch` with an
`except GitCommandException` handler that runs the naive loop.  The
handler's class test is faithful: it catches the raised exception only when
the exception's runtime class is caught by `GitCommandException`. -/
def apply_patch_conflict_resolving (outcome : Option CmdFail)
    (conflicts : List MergeConflict) (trace : List (Option CmdFail)) :
    Option (Except Exc Bool) :=
  match apply_patch outcome conflicts with
  | none => some (.ok false)
  | some e =>
    if e.cls.caughtBy .gitCommandException then
      (naive_conflict_resolution e trace).map (fun p => p.1.map (fun b => b))
    else
      some (.error e)

/-! ### Interactive orchestration (`src/morticia.py` lines 199–236)

`Project._interactive_conflict_resolution` loops: present the paginator and
await the operator; a cancel returns `False` without calling
`continue_merge`; otherwise every conflict is resolved and
`continue_merge` is called, returning `True` on success or looping on a new
`MergeConflictsException`.  Each round's external outcome enters as one
entry of a trace. -/

inductive RoundOutcome where
  /-- Python `paginator.respond` resolved to a falsy value: timeout or Cancel. -/
  | cancel
  /-- Operator continued and `continue_merge` succeeded. -/
  | continueOk
  /-- Operator continued and `continue_merge` raised a new
  `MergeConflictsException`. -/
  | continueConflict (e : Exc)
  deriving DecidableEq, Repr

/-- Python `Project._interactive_conflict_resolution`: `some false` on cancel,
`some true` once a continue succeeds, recursing on a fresh conflict set;
`none` when the supplied trace is too short to decide the run. -/
def interactive_conflict_resolution : List RoundOutcome → Option Bool
  | [] => none
  | .cancel :: _ => some false
  | .continueOk :: _ => some true
  | .continueConflict _ :: rest => interactive_conflict_resolution rest

/-- Result of `Project.add_pull_request_interactive`: the returned boolean
together with whether `_finish_adding_pull_request` (push the branch,
persist the branch-to-change state) was invoked.  In the conflict-free path
the finish step runs inside `add_pull_request` itself (line 197). -/
structure InteractiveResult where
  returned : Bool
  finishCalled : Bool
  deriving DecidableEq, Repr

/-- Python `Project.add_pull_request_interactive` (lines 220–236), faithfully:
```
try:    await self.add_pull_request(pull_request_id)      # finishes itself
except MergeConflictsException as exception:
    success = await self._interactive_conflict_resolution(...)
    if success:
        return False
    await self._finish_adding_pull_request(pull_request_id)
return True
```
`applyExc` is the `MergeConflictsException` raised by the apply step, if
any; `rounds` is the interactive trace. -/
def add_pull_request_interactive (applyExc : Option Exc)
    (rounds : List RoundOutcome) : Option InteractiveResult :=
  match applyExc with
  | none => some { returned := true, finishCalled := true }
  | some _ =>
    (interactive_conflict_resolution rounds).map (fun success =>
      if success then { returned := false, finishCalled := false }
      else { returned := true, finishCalled := true })

/-- The caller's reaction in `MorticiaBot.start_port` (`src/bot.py` lines
98–104): when `add_pull_request_interactive` returns `False` the bot
returns early ("process was timed out or cancelled by user"), otherwise it
calls `create_pull_request(title, pr_id)` — with `draft` left at its
default `False`. -/
def start_port_creates_pr (interactiveReturn : Bool) : Bool := interactiveReturn

/-- Python `Project.create_pull_request`'s `draft` parameter defaults to `False`
and `start_port` passes no `draft` argument. -/
def start_port_draft_flag : Bool := false

/-! ### StatusMessage (`src/status.py` lines 10–66 and 97–108)

Buffered text is modelled as `List Char`; each flush appends the wrapped
content that is sent or edited to the `emitted` list. -/

def MAX_MESSAGE_LENGTH : Nat := 2000
def FORMATTING_CHARS_LENGTH : Nat := 12

structure StatusMessage where
  buffered_text : List Char
  next_message : Bool
  emitted : List (List Char)
  deriving DecidableEq, Repr

/-- Python `StatusMessage.flush`: sends (or edits) `f"```ansi\n{buffered}```"` and
clears `next_message`. -/
def StatusMessage.flush (s : StatusMessage) : StatusMessage :=
  { s with
    emitted := s.emitted ++ ["```ansi\n".data ++ s.buffered_text ++ "```".data]
    next_message := false }

/-- The `while` loop of `StatusMessage.write`: while the (redacted) message
plus formatting overhead exceeds the limit, flush a full-size slice as its
own segment and continue with the remainder; finally append what is left to
the buffer. -/
def StatusMessage.writeLoop (s : StatusMessage) (message : List Char) :
    StatusMessage :=
  if _h : message.length + FORMATTING_CHARS_LENGTH > MAX_MESSAGE_LENGTH then
    let message_slice := message.take (MAX_MESSAGE_LENGTH - FORMATTING_CHARS_LENGTH)
    let rest := message.drop (MAX_MESSAGE_LENGTH - FORMATTING_CHARS_LENGTH)
    let s' := StatusMessage.flush { s with buffered_text := message_slice }
    StatusMessage.writeLoop { s' with next_message := true, buffered_text := [] } rest
  else
    { s with buffered_text := s.buffered_text ++ message }
  termination_by message.length
  decreasing_by
    simp only [List.length_drop]
    simp only [MAX_MESSAGE_LENGTH, FORMATTING_CHARS_LENGTH] at *
    omega

/-- Python `StatusMessage.write(message)`: redact the credential token, then — if
the remaining room minus the message length is ≤ 0 — mark a new message and
reset the buffer (without flushing), then run the segmentation loop. -/
def StatusMessage.write (token : List Char) (s : StatusMessage)
    (message : List Char) : StatusMessage :=
  let message := pyReplace token "<REDACTED>".data message
  let remaining_length : Int :=
    (MAX_MESSAGE_LENGTH : Int) - FORMATTING_CHARS_LENGTH - s.buffered_text.length
  let s :=
    if remaining_length - message.length ≤ 0 then
      { s with next_message := true, buffered_text := [] }
    else s
  StatusMessage.writeLoop s message

/-! ### History index (`src/model.py`, `src/morticia.py` lines 315–485)

Naive datetimes (timezone already stripped) are modelled as integers; the
ORM session is modelled as in-memory row lists.  Python `set` accumulation
is modelled as insertion-ordered lists without duplicates — the final
ordering is fixed by the explicit sort in any case. -/

structure KnownPullRequest where
  pull_request_id : Nat
  repo_id : String
  title : String
  merged : Bool
  created_at : Int
  /-- Python `merged_at`; only ever compared after the `merged` check. -/
  merged_at : Int
  deriving DecidableEq, Repr

structure KnownFileChange where
  pull_request_id : Nat
  repo_id : String
  file_path : String
  status : String
  previous_file_path : Option String
  deriving DecidableEq, Repr

structure Database where
  prs : List KnownPullRequest
  changes : List KnownFileChange
  deriving Repr

/-- One entry of the seed pull request's changed-file listing
(`median_pr.get_files()`). -/
structure FileEntry where
  filename : String
  status : String
  deriving DecidableEq, Repr

/-- The seed pull request as fetched from the source forge. -/
structure GithubPR where
  number : Nat
  files : List FileEntry
  merged : Bool
  created_at : Int
  merged_at : Int
  deriving Repr

/-- Python `median_pr.merged and median_pr.merged_at or median_pr.created_at`,
with `tzinfo` already stripped from the model's integer times. -/
def referenceTime (pr : GithubPR) : Int :=
  if pr.merged then pr.merged_at else pr.created_at

/-- Row lookup used by the per-change `select(KnownPullRequest)` and by the
`pull_request` relationship: first row matching `(repo_id, number)`. -/
def findPR (db : Database) (repoId : String) (n : Nat) :
    Option KnownPullRequest :=
  db.prs.find? (fun p => p.repo_id == repoId && p.pull_request_id == n)

def changelogPath : String := "Resources/Changelog/Changelog.yml"

/-- Python `Morticia.get_upstream_merge_prs(repo_id)`: the pull requests joined
from file changes whose `file_path` is the changelog marker path. -/
def get_upstream_merge_prs (db : Database) (repoId : String) :
    List KnownPullRequest :=
  (db.changes.filter
      (fun c => c.file_path == changelogPath && c.repo_id == repoId)).filterMap
    (fun c => findPR db repoId c.pull_request_id)

/-- Python `Morticia.HIGH_FREQUENCY_FILES`. -/
def HIGH_FREQUENCY_FILES : List String :=
  [ "Resources/Prototypes/Entities/Structures/Machines/lathe.yml"
  , "Resources/Prototypes/tags.yml"
  , "Resources/Prototypes/Loadouts/loadout_groups.yml"
  , "Resources/Prototypes/Entities/Mobs/NPCs/animals.yml"
  , "Resources/Prototypes/Entities/Objects/Fun/toys.yml"
  , "Resources/Prototypes/Loadouts/Miscellaneous/trinkets.yml"
  , "Resources/Prototypes/_Impstation/Loadouts/Miscellaneous/trinkets.yml" ]

/-- Set insertion preserving first-insertion order. -/
def insertUnique [DecidableEq α] (xs : List α) (x : α) : List α :=
  if x ∈ xs then xs else xs ++ [x]

/-- Seed paths of `get_ancestors`: files of the median PR whose status
matches `modified | changed | renamed | deleted`, skipping
`HIGH_FREQUENCY_FILES` first. -/
def ancestorSeedPaths (median : GithubPR) : List String :=
  median.files.foldl
    (fun acc f =>
      if f.filename ∈ HIGH_FREQUENCY_FILES then acc
      else if f.status ∈ ["modified", "changed", "renamed", "deleted"] then
        insertUnique acc f.filename
      else acc) []

/-- Seed paths of `get_descendants`: files whose status is `added` — the
code applies no `HIGH_FREQUENCY_FILES` exclusion here. -/
def descendantSeedPaths (median : GithubPR) : List String :=
  median.files.foldl
    (fun acc f =>
      if f.status ∈ ["added"] then insertUnique acc f.filename else acc) []

/-- The file-change rows matching one seed path: same repository, current
or previous path equal to the seed. -/
def changesForPath (db : Database) (repoId : String) (p : String) :
    List KnownFileChange :=
  db.changes.filter
    (fun c => c.repo_id == repoId
      && (c.file_path == p || c.previous_file_path == some p))

/-- The body of both query loops: for every seed path and matching change,
look the pull request up and keep it when it is merged, on the accepted
side of the reference time, and not an upstream-merge marker change.
`keepTime` is `merged_at < t` for ancestors and `t < merged_at` for
descendants (the code skips on `>=` resp. `<=`).  A change row whose pull
request is missing would crash the Python with `AttributeError`; the
foreign-key invariant rules that out, and the model skips it. -/
def collectStep (db : Database) (repoId : String) (keepTime : Int → Bool)
    (upstream : List KnownPullRequest) (acc : List KnownPullRequest)
    (c : KnownFileChange) : List KnownPullRequest :=
  match findPR db repoId c.pull_request_id with
  | none => acc
  | some pr =>
    if !pr.merged then acc
    else if !keepTime pr.merged_at then acc
    else if pr ∈ upstream then acc
    else insertUnique acc pr

def collectRows (db : Database) (repoId : String) (seeds : List String)
    (keepTime : Int → Bool) (upstream : List KnownPullRequest) :
    List KnownPullRequest :=
  seeds.foldl
    (fun acc p =>
      (changesForPath db repoId p).foldl
        (collectStep db repoId keepTime upstream) acc) []

/-- Python `list.sort(key=lambda e: e.merged_at)`: stable ascending sort by merge
time. -/
def sortByMergedAt (rows : List KnownPullRequest) : List KnownPullRequest :=
  rows.mergeSort (fun a b => a.merged_at ≤ b.merged_at)

/-- Python `f"#{pr.pull_request_id} - {pr.title}"`. -/
def prLink (pr : KnownPullRequest) : String :=
  "#" ++ toString pr.pull_request_id ++ " - " ++ pr.title

/-- The sorted row list underlying `Morticia.get_ancestors`. -/
def ancestorRows (db : Database) (repoId : String) (median : GithubPR) :
    List KnownPullRequest :=
  sortByMergedAt
    (collectRows db repoId (ancestorSeedPaths median)
      (fun mergedAt => !(mergedAt ≥ referenceTime median))
      (get_upstream_merge_prs db repoId))

/-- Python `Morticia.get_ancestors` (lines 372–429). -/
def get_ancestors (db : Database) (repoId : String) (median : GithubPR) :
    List String :=
  (ancestorRows db repoId median).map prLink

/-- The sorted row list underlying `Morticia.get_descendants`. -/
def descendantRows (db : Database) (repoId : String) (median : GithubPR) :
    List KnownPullRequest :=
  sortByMergedAt
    (collectRows db repoId (descendantSeedPaths median)
      (fun mergedAt => !(mergedAt ≤ referenceTime median))
      (get_upstream_merge_prs db repoId))

/-- Python `Morticia.get_descendants` (lines 431–485). -/
def get_descendants (db : Database) (repoId : String) (median : GithubPR) :
    List String :=
  (descendantRows db repoId median).map prLink

/-- Modelled from the spec: the descendant query as the claim describes it
— "seed paths are those X added; candidate changes must be merged strictly
after X's reference time; same exclusion and sort rules" as the ancestor
query, i.e. including the `HIGH_FREQUENCY_FILES` seed exclusion. -/
def descendants_claimed (db : Database) (repoId : String) (median : GithubPR) :
    List String :=
  (sortByMergedAt
    (collectRows db repoId
      (median.files.foldl
        (fun acc f =>
          if f.filename ∈ HIGH_FREQUENCY_FILES then acc
          else if f.status ∈ ["added"] then insertUnique acc f.filename
          else acc) [])
      (fun mergedAt => referenceTime median < mergedAt)
      (get_upstream_merge_prs db repoId))).map prLink

/-! ### Porting-method selection (`src/morticia.py` lines 128–148) -/

inductive PortingMethod where
  | patch
  | cherry_pick
  deriving DecidableEq, Repr

/-- The target change as seen by `_select_porting_method`: its merged flag
and the parent count of its merge commit. -/
structure TargetPullRequest where
  merged : Bool
  merge_commit_parents : Nat
  deriving DecidableEq, Repr

/-- Python `Project._select_porting_method`: unmerged → PATCH; merge commit with
more than one parent → PATCH; otherwise CHERRY_PICK. -/
def select_porting_method (pr : TargetPullRequest) : PortingMethod :=
  if !pr.merged then .patch
  else if pr.merge_commit_parents > 1 then .patch
  else .cherry_pick

/-! ### Concrete sample values used by individual theorems -/

/-- A `MergeConflictsException` as raised by a conflicted `git am`. -/
def sampleApplyExc : Exc :=
  { cls := .mergeConflictsException
    stdout := "CONFLICT (content): Merge conflict in a.txt"
    stderr := "", exit_code := 128, command := "am"
    conflicts := [MergeConflict.init "repo" "a.txt" "x" "d"] }

/-- A conflict failure whose stdout carries exactly one occurrence of the
naive-resolution marker. -/
def markerExc : Exc :=
  { cls := .mergeConflictsException
    stdout := "deleted in HEAD and modified in foo.txt"
    stderr := "", exit_code := 128, command := "am", conflicts := [] }

/-- A conflict failure whose stdout lacks the marker. -/
def plainExc : Exc :=
  { cls := .mergeConflictsException
    stdout := "CONFLICT (content): Merge conflict in b.txt"
    stderr := "", exit_code := 128, command := "am", conflicts := [] }

/-- The failed `git am` outcome of the C2 scenario: stdout carries both the
`CONFLICT` marker and the deleted-in-HEAD marker. -/
def c2FailOut : CmdFail :=
  { stdout := "CONFLICT (modify/delete): foo.txt deleted in HEAD and modified in foo.txt"
    stderr := "", exit_code := 128 }

/-- A full status buffer (limit minus formatting overhead). -/
def fullStatus : StatusMessage :=
  { buffered_text := List.replicate 1988 'a', next_message := false, emitted := [] }

/-- Index for the C3 counterexample: the seed change added the high-churn
path `Resources/Prototypes/tags.yml`, and one later merged change touches
that path. -/
def c3Db : Database :=
  { prs := [ { pull_request_id := 9, repo_id := "org/repo", title := "later change"
               merged := true, created_at := 50, merged_at := 100 } ]
    changes := [ { pull_request_id := 9, repo_id := "org/repo"
                   file_path := "Resources/Prototypes/tags.yml"
                   status := "modified", previous_file_path := none } ] }

/-- The C3 seed change: merged at time 10, having added only the high-churn
path. -/
def c3Median : GithubPR :=
  { number := 5
    files := [ { filename := "Resources/Prototypes/tags.yml", status := "added" } ]
    merged := true, created_at := 1, merged_at := 10 }

/-- Index for the C8 witness: one in-range ancestor, one too-late change,
one unmerged change, one changelog marker change, and the seed's own row. -/
def c8Db : Database :=
  { prs :=
      [ { pull_request_id := 1, repo_id := "org/repo", title := "early"
          merged := true, created_at := 1, merged_at := 5 }
      , { pull_request_id := 2, repo_id := "org/repo", title := "late"
          merged := true, created_at := 1, merged_at := 50 }
      , { pull_request_id := 3, repo_id := "org/repo", title := "open"
          merged := false, created_at := 2, merged_at := 0 }
      , { pull_request_id := 4, repo_id := "org/repo", title := "upstream merge"
          merged := true, created_at := 1, merged_at := 7 }
      , { pull_request_id := 7, repo_id := "org/repo", title := "seed"
          merged := true, created_at := 3, merged_at := 20 } ]
    changes :=
      [ { pull_request_id := 1, repo_id := "org/repo", file_path := "a.txt"
          status := "modified", previous_file_path := none }
      , { pull_request_id := 2, repo_id := "org/repo", file_path := "a.txt"
          status := "modified", previous_file_path := none }
      , { pull_request_id := 3, repo_id := "org/repo", file_path := "a.txt"
          status := "modified", previous_file_path := none }
      , { pull_request_id := 4, repo_id := "org/repo", file_path := "a.txt"
          status := "modified", previous_file_path := none }
      , { pull_request_id := 4, repo_id := "org/repo", file_path := changelogPath
          status := "modified", previous_file_path := none }
      , { pull_request_id := 7, repo_id := "org/repo", file_path := "a.txt"
          status := "modified", previous_file_path := none } ] }

/-- The C8 witness seed: change #7, merged at time 20, modifying `a.txt`. -/
def c8Median : GithubPR :=
  { number := 7
    files := [ { filename := "a.txt", status := "modified" } ]
    merged := true, created_at := 3, merged_at := 20 }

/-- Index for the C3 witness: the seed added `b.txt`; change #12 touches it
later. -/
def c3WitnessDb : Database :=
  { prs := [ { pull_request_id := 12, repo_id := "org/repo", title := "desc"
               merged := true, created_at := 30, merged_at := 40 } ]
    changes := [ { pull_request_id := 12, repo_id := "org/repo"
                   file_path := "b.txt", status := "modified"
                   previous_file_path := none } ] }

/-- The C3 witness seed: change #11, merged at 20, which added `b.txt`. -/
def c3WitnessMedian : GithubPR :=
  { number := 11
    files := [ { filename := "b.txt", status := "added" } ]
    merged := true, created_at := 15, merged_at := 20 }

/-! ## Theorems -/

/-- C9: for every target change, `_select_porting_method` returns patch
application whenever the change is unmerged (regardless of parent count) or
its merge commit has more than one parent, and cherry-pick whenever the
change is merged and its merge commit has exactly one parent. -/
theorem c9_method_selection (pr : TargetPullRequest) :
    ((pr.merged = false ∨ pr.merge_commit_parents > 1) →
      select_porting_method pr = .patch) ∧
    (pr.merged = true → pr.merge_commit_parents = 1 →
      select_porting_method pr = .cherry_pick) := by
  obtain ⟨m, n⟩ := pr
  constructor
  · rintro (h | h)
    · subst h; rfl
    · cases m
      · rfl
      · simp [select_porting_method, Nat.not_lt.mpr, h]
  · rintro rfl rfl
    rfl

/-- C9 witness: an unmerged change with a 2-parent merge commit and a merged
one with 2 parents both select patch; a merged change with 1 parent selects
cherry-pick. -/
theorem c9_method_selection_witness :
    select_porting_method { merged := false, merge_commit_parents := 2 } = .patch ∧
    select_porting_method { merged := true, merge_commit_parents := 2 } = .patch ∧
    select_porting_method { merged := true, merge_commit_parents := 1 } = .cherry_pick :=
  ⟨(c9_method_selection _).1 (.inl rfl),
   (c9_method_selection _).1 (.inr (by decide)),
   (c9_method_selection _).2 rfl rfl⟩

/-- C10: every `MergeConflict` is created with `resolution = UNSELECTED` and
`proposed_content` equal to the conflicted file's current content, and
calling `resolve()` on a still-UNSELECTED conflict raises an exception
while issuing no file write and no git command. -/
theorem c10_unselected_resolve (repoPath path content diff : String)
    (c : MergeConflict) (h : c.resolution = .unselected) :
    (MergeConflict.init repoPath path content diff).resolution = .unselected ∧
    (MergeConflict.init repoPath path content diff).proposed_content = content ∧
    c.resolve = .error "This should not happen." := by
  refine ⟨rfl, rfl, ?_⟩
  simp [MergeConflict.resolve, h]

/-- C10 witness: the freshly created conflict for `a.txt` satisfies the
hypothesis, and resolving it raises without effects. -/
theorem c10_unselected_resolve_witness :
    (MergeConflict.init "repo" "a.txt" "body" "diff").resolution = .unselected ∧
    (MergeConflict.init "repo" "a.txt" "body" "diff").resolve =
      .error "This should not happen." := by
  have h := c10_unselected_resolve "repo" "a.txt" "body" "diff"
    (MergeConflict.init "repo" "a.txt" "body" "diff") rfl
  exact ⟨h.1, h.2.2⟩

/-- C7: the code cannot honour the claimed UNSELECTED → DEFERRED
transition: `ResolutionType` has no DEFERRED member and the "Fix it later"
button's `self.conflict.as_is()` call raises `AttributeError` (`as_is` is
not defined on `MergeConflict`), leaving the conflict UNSELECTED.  The
gating half of the claim does hold: the continue action is enabled exactly
when no conflict is UNSELECTED. -/
theorem c7_deferred_missing :
    (∀ c : MergeConflict,
      pressButton c .fixLater =
        .error "AttributeError: MergeConflict object has no attribute as_is") ∧
    (∀ r : ResolutionType,
      r = .unselected ∨ r = .manual ∨ r = .ours ∨ r = .theirs) ∧
    (∀ conflicts : List MergeConflict,
      update_continue_button_disabled conflicts = false ↔
        num_remaining_conflicts conflicts = 0) := by
  refine ⟨fun _ => rfl, fun r => ?_, fun conflicts => ?_⟩
  · cases r <;> simp
  · simp [update_continue_button_disabled]

/-- C5: `RepoId` values constructed from `(org, repo)` pairs differing only
in letter case are not equal — `__init__` stores the strings verbatim and
the class defines no `__eq__` (Python equality is object identity, so even
identically-cased constructions differ) — although slug and URL agree. -/
theorem c5_counterexample :
    pyLower "Foo" = pyLower "foo" ∧ pyLower "Bar" = pyLower "bar" ∧
    RepoId.mk "Foo" "Bar" ≠ RepoId.mk "foo" "bar" ∧
    (RepoId.mk "Foo" "Bar").slug = (RepoId.mk "foo" "bar").slug ∧
    (RepoId.mk "Foo" "Bar").url = (RepoId.mk "foo" "bar").url := by
  refine ⟨by decide, by decide, by decide, ?_, ?_⟩ <;> rfl

/-- C5 (amended): for all `(org, repo)` pairs differing only in letter
case, the constructed `RepoId` values need not be equal (no normalization
happens at construction and the class defines no value equality), but the
derived representation, slug and canonical URL agree for both. -/
theorem c5_case_normalized_derivations (o₁ r₁ o₂ r₂ : String)
    (ho : pyLower o₁ = pyLower o₂) (hr : pyLower r₁ = pyLower r₂) :
    (RepoId.mk o₁ r₁).repr = (RepoId.mk o₂ r₂).repr ∧
    (RepoId.mk o₁ r₁).slug = (RepoId.mk o₂ r₂).slug ∧
    (RepoId.mk o₁ r₁).url = (RepoId.mk o₂ r₂).url := by
  have hrepr : (RepoId.mk o₁ r₁).repr = (RepoId.mk o₂ r₂).repr := by
    simp only [RepoId.repr, pyLower_append, ho, hr]
  exact ⟨hrepr, by simp only [RepoId.slug, hrepr], by simp only [RepoId.url, hrepr]⟩

/-- C5 witness: the amended statement applied to `("Foo", "Bar")` versus
`("foo", "bar")`. -/
theorem c5_case_normalized_derivations_witness :
    pyLower "Foo" = pyLower "foo" ∧ pyLower "Bar" = pyLower "bar" ∧
    ((RepoId.mk "Foo" "Bar").repr = (RepoId.mk "foo" "bar").repr ∧
     (RepoId.mk "Foo" "Bar").slug = (RepoId.mk "foo" "bar").slug ∧
     (RepoId.mk "Foo" "Bar").url = (RepoId.mk "foo" "bar").url) :=
  ⟨by decide, by decide,
   c5_case_normalized_derivations "Foo" "Bar" "foo" "bar" (by decide) (by decide)⟩

/-- C1: the orchestration is inverted relative to the claim (and to the
method's own docstring "true if the process was completed successfully" and
the caller's comment "process was timed out or cancelled by user"): when
the operator cancels, `add_pull_request_interactive` runs
`_finish_adding_pull_request` (push + persistence) and returns `True`, upon
which `start_port` opens the outward pull request; when every conflict is
resolved and the final continue succeeds, it returns `False` without the
finish step and the caller treats the port as cancelled. -/
theorem c1_inverted_finish :
    add_pull_request_interactive (some sampleApplyExc) [.cancel] =
      some { returned := true, finishCalled := true } ∧
    add_pull_request_interactive (some sampleApplyExc) [.continueOk] =
      some { returned := false, finishCalled := false } ∧
    start_port_creates_pr true = true ∧
    start_port_creates_pr false = false :=
  ⟨rfl, rfl, rfl, rfl⟩

/-- C2: `apply_patch` converts the conflicted `git am` failure into a
`MergeConflictsException`, which subclasses `CommandException` directly —
so the `except GitCommandException` handler in
`apply_patch_conflict_resolving` does not match it: the failure propagates,
the naive loop never runs, and (since `add_pull_request` discards the
return value and `start_port` never passes `draft=True`) no draft pull
request results. -/
theorem c2_conflict_not_caught (conflicts : List MergeConflict)
    (trace : List (Option CmdFail)) :
    hasConflictMarker c2FailOut.stdout = true ∧
    containsSub deletedMarker c2FailOut.stdout.data = true ∧
    apply_patch (some c2FailOut) conflicts =
      some { cls := .mergeConflictsException, stdout := c2FailOut.stdout
             stderr := "", exit_code := 128, command := "am"
             conflicts := conflicts } ∧
    ExcClass.caughtBy .mergeConflictsException .gitCommandException = false ∧
    apply_patch_conflict_resolving (some c2FailOut) conflicts trace =
      some (.error { cls := .mergeConflictsException, stdout := c2FailOut.stdout
                     stderr := "", exit_code := 128, command := "am"
                     conflicts := conflicts }) ∧
    start_port_draft_flag = false := by
  have hc : hasConflictMarker c2FailOut.stdout = true := by decide
  have hm : containsSub deletedMarker c2FailOut.stdout.data = true := by decide
  have hap : apply_patch (some c2FailOut) conflicts =
      some { cls := .mergeConflictsException, stdout := c2FailOut.stdout
             stderr := "", exit_code := 128, command := "am"
             conflicts := conflicts } := by
    simp [apply_patch, hc]
    exact ⟨rfl, rfl⟩
  refine ⟨hc, hm, hap, rfl, ?_, rfl⟩
  simp [apply_patch_conflict_resolving, hap, ExcClass.caughtBy]

theorem countOcc_pos {pat s : List Char} (hp : pat ≠ [])
    (h : containsSub pat s = true) : 1 ≤ countOcc pat s := by
  induction s with
  | nil =>
    unfold containsSub at h
    exact absurd (List.prefix_nil.mp (List.isPrefixOf_iff_prefix.mp h)) hp
  | cons c rest ih =>
    unfold containsSub at h
    unfold countOcc
    rcases Bool.or_eq_true _ _ |>.mp h with h | h
    · rw [if_pos h]
      omega
    · have := ih h
      split <;> omega

/-- C6: the naive-resolution loop terminates within the number of marker
occurrences in the failure output, and re-raises the caught failure itself,
unchanged, when its stdout lacks the marker.  The loop's `except
MergeConflictsException` arm is dead — `self.git` raises only
`GitCommandException`, a sibling class — so at most one continue attempt
runs (1 ≤ the occurrence count whenever the loop is entered, 0 when the
marker is absent), a failed continue propagates uncaught, and `e` is never
reassigned: a marker-free `e` is re-raised as the very value that was
caught. -/
theorem c6_naive_loop (e : Exc) (trace : List (Option CmdFail)) :
    (∀ out, naive_conflict_resolution e trace = some out →
      out.2 ≤ countOcc deletedMarker e.stdout.data) ∧
    (hasDeletedMarker e = false →
      naive_conflict_resolution e trace = some (.error e, 0)) := by
  constructor
  · intro out h
    rw [naive_conflict_resolution.eq_def] at h
    by_cases hm : hasDeletedMarker e
    · rw [if_pos hm] at h
      have hocc : 1 ≤ countOcc deletedMarker e.stdout.data :=
        countOcc_pos (by decide) hm
      cases trace with
      | nil => exact absurd h (by simp)
      | cons o rest =>
        cases o with
        | none =>
          dsimp only at h
          injection h with h
          rw [← h]
          exact hocc
        | some f =>
          dsimp only at h
          rw [if_neg (by simp [git_exc, ExcClass.caughtBy])] at h
          injection h with h
          rw [← h]
          exact hocc
    · rw [if_neg hm] at h
      injection h with h
      rw [← h]
      exact Nat.zero_le _
  · intro hm
    rw [naive_conflict_resolution.eq_def, if_neg (by simp [hm])]

/-- C6 witness: a marker-carrying failure whose continue succeeds performs
one attempt (within its single marker occurrence), and a marker-free
failure is re-raised itself, unchanged, with zero attempts. -/
theorem c6_naive_loop_witness :
    naive_conflict_resolution markerExc [none] = some (.ok true, 1) ∧
    1 ≤ countOcc deletedMarker markerExc.stdout.data ∧
    naive_conflict_resolution plainExc [] = some (.error plainExc, 0) := by
  have h1 : naive_conflict_resolution markerExc [none] = some (.ok true, 1) := by
    rfl
  refine ⟨h1, ?_, ?_⟩
  · exact (c6_naive_loop markerExc [none]).1 (.ok true, 1) h1
  · exact (c6_naive_loop plainExc []).2 (by decide)

theorem pyReplace_nil (old new : List Char) : pyReplace old new [] = [] := by
  rw [pyReplace]

theorem writeLoop_short (s : StatusMessage) (message : List Char)
    (h : message.length + FORMATTING_CHARS_LENGTH ≤ MAX_MESSAGE_LENGTH) :
    StatusMessage.writeLoop s message =
      { s with buffered_text := s.buffered_text ++ message } := by
  rw [StatusMessage.writeLoop]
  rw [dif_neg (by omega)]

theorem writeLoop_spec_aux (n : Nat) :
    ∀ message : List Char, message.length ≤ n → ∀ s : StatusMessage,
      (∃ segs, (StatusMessage.writeLoop s message).emitted = s.emitted ++ segs ∧
        ∀ seg ∈ segs, seg.length ≤ MAX_MESSAGE_LENGTH) ∧
      (StatusMessage.writeLoop s message).buffered_text.length ≤
        max (s.buffered_text.length + message.length)
          (MAX_MESSAGE_LENGTH - FORMATTING_CHARS_LENGTH) ∧
      (message.length + FORMATTING_CHARS_LENGTH > MAX_MESSAGE_LENGTH →
        (StatusMessage.writeLoop s message).buffered_text.length ≤
          MAX_MESSAGE_LENGTH - FORMATTING_CHARS_LENGTH) := by
  induction n with
  | zero =>
    intro message hm s
    have hshort : message.length + FORMATTING_CHARS_LENGTH ≤ MAX_MESSAGE_LENGTH := by
      simp only [MAX_MESSAGE_LENGTH, FORMATTING_CHARS_LENGTH]; omega
    rw [writeLoop_short s message hshort]
    refine ⟨⟨[], by simp, by simp⟩, by simp, fun hlong => absurd hlong (by omega)⟩
  | succ n ih =>
    intro message hm s
    by_cases hlong : message.length + FORMATTING_CHARS_LENGTH > MAX_MESSAGE_LENGTH
    · rw [StatusMessage.writeLoop, dif_pos hlong]
      have hrestlen :
          (message.drop (MAX_MESSAGE_LENGTH - FORMATTING_CHARS_LENGTH)).length =
          message.length - (MAX_MESSAGE_LENGTH - FORMATTING_CHARS_LENGTH) := by
        simp
      have hrle :
          (message.drop (MAX_MESSAGE_LENGTH - FORMATTING_CHARS_LENGTH)).length ≤ n := by
        simp only [MAX_MESSAGE_LENGTH, FORMATTING_CHARS_LENGTH] at hrestlen hlong ⊢
        omega
      obtain ⟨⟨segs, hsegs, hseglen⟩, hbuf, hbuflong⟩ :=
        ih (message.drop (MAX_MESSAGE_LENGTH - FORMATTING_CHARS_LENGTH)) hrle
          { buffered_text := [], next_message := true
            emitted := s.emitted ++ ["```ansi\n".data ++
              message.take (MAX_MESSAGE_LENGTH - FORMATTING_CHARS_LENGTH) ++ "```".data] }
      have hslice : (message.take (MAX_MESSAGE_LENGTH - FORMATTING_CHARS_LENGTH)).length =
          MAX_MESSAGE_LENGTH - FORMATTING_CHARS_LENGTH := by
        simp only [List.length_take, MAX_MESSAGE_LENGTH, FORMATTING_CHARS_LENGTH] at hlong ⊢
        omega
      have h0 : ∀ em : List (List Char),
          (StatusMessage.mk [] true em).buffered_text.length = 0 := fun _ => rfl
      refine ⟨⟨("```ansi\n".data ++
          message.take (MAX_MESSAGE_LENGTH - FORMATTING_CHARS_LENGTH) ++ "```".data)
            :: segs, ?_, ?_⟩, ?_, fun _ => ?_⟩
      · exact hsegs.trans (by simp)
      · intro seg hseg
        rcases List.mem_cons.mp hseg with rfl | hseg
        · have hA : ("```ansi\n".data).length = 8 := rfl
          have hB : ("```".data).length = 3 := rfl
          simp only [List.length_append, hA, hB]
          rw [hslice]
          decide
        · exact hseglen seg hseg
      · refine le_trans hbuf ?_
        rw [h0, hrestlen]
        simp only [MAX_MESSAGE_LENGTH, FORMATTING_CHARS_LENGTH] at hlong ⊢
        omega
      · by_cases hrl :
            (message.drop (MAX_MESSAGE_LENGTH - FORMATTING_CHARS_LENGTH)).length +
              FORMATTING_CHARS_LENGTH > MAX_MESSAGE_LENGTH
        · exact hbuflong hrl
        · refine le_trans hbuf ?_
          rw [h0, hrestlen]
          rw [hrestlen] at hrl
          simp only [MAX_MESSAGE_LENGTH, FORMATTING_CHARS_LENGTH] at hrl ⊢
          omega
    · push_neg at hlong
      rw [writeLoop_short s message hlong]
      refine ⟨⟨[], by simp, by simp⟩, by simp, fun hl => absurd hl (by omega)⟩

/-- C4: on overflow the buffer is reset without being flushed: writing to a
full buffer discards the buffered text — nothing is emitted — and the
buffer restarts empty, refuting "the current buffer is first flushed and
then reset ... no buffered text is discarded unflushed". -/
theorem c4_counterexample :
    ((MAX_MESSAGE_LENGTH : Int) - FORMATTING_CHARS_LENGTH -
        fullStatus.buffered_text.length -
        (pyReplace ['z'] "<REDACTED>".data []).length ≤ 0) ∧
    fullStatus.buffered_text ≠ [] ∧
    StatusMessage.write ['z'] fullStatus [] =
      { buffered_text := [], next_message := true, emitted := [] } := by
  have hbuflen : fullStatus.buffered_text.length = 1988 := by
    simp only [fullStatus]
    exact List.length_replicate _ _
  have hcond0 : ((MAX_MESSAGE_LENGTH : Int) - FORMATTING_CHARS_LENGTH -
      fullStatus.buffered_text.length - (List.length ([] : List Char)) ≤ 0) := by
    rw [hbuflen]
    decide
  refine ⟨?_, ?_, ?_⟩
  · rw [pyReplace_nil]
    exact hcond0
  · intro hcontra
    have := congrArg List.length hcontra
    rw [hbuflen] at this
    simp at this
  · simp only [StatusMessage.write, pyReplace_nil]
    rw [if_pos hcond0]
    rw [writeLoop_short _ _ (by decide)]
    rfl

/-- C4 (amended): when buffered text plus incoming text would exceed the
limit, the buffer is reset and a new message begun without flushing the
pending buffer — the discarded text is never emitted — while the claim's
bound does hold: no segment flushed by a write exceeds the configured
maximum length, and the buffer never retains more than limit − overhead
characters. -/
theorem c4_segmentation (token : List Char) (s : StatusMessage)
    (message : List Char) :
    (∃ segs, (StatusMessage.write token s message).emitted = s.emitted ++ segs ∧
      ∀ seg ∈ segs, seg.length ≤ MAX_MESSAGE_LENGTH) ∧
    (StatusMessage.write token s message).buffered_text.length ≤
      MAX_MESSAGE_LENGTH - FORMATTING_CHARS_LENGTH ∧
    (((MAX_MESSAGE_LENGTH : Int) - FORMATTING_CHARS_LENGTH - s.buffered_text.length -
        (pyReplace token "<REDACTED>".data message).length ≤ 0) →
      (pyReplace token "<REDACTED>".data message).length + FORMATTING_CHARS_LENGTH ≤
        MAX_MESSAGE_LENGTH →
      StatusMessage.write token s message =
        { buffered_text := pyReplace token "<REDACTED>".data message
          next_message := true, emitted := s.emitted }) := by
  simp only [StatusMessage.write]
  set msgR := pyReplace token "<REDACTED>".data message with hmsgR
  by_cases hovf : ((MAX_MESSAGE_LENGTH : Int) - FORMATTING_CHARS_LENGTH -
      s.buffered_text.length - msgR.length ≤ 0)
  · rw [if_pos hovf]
    obtain ⟨⟨segs, hsegs, hseglen⟩, hbuf, hbuflong⟩ :=
      writeLoop_spec_aux msgR.length msgR (Nat.le_refl _)
        { s with next_message := true, buffered_text := [] }
    refine ⟨⟨segs, hsegs, hseglen⟩, ?_, fun _ hshort => ?_⟩
    · by_cases hlong : msgR.length + FORMATTING_CHARS_LENGTH > MAX_MESSAGE_LENGTH
      · exact hbuflong hlong
      · refine le_trans hbuf ?_
        simp only [List.length_nil]
        omega
    · rw [writeLoop_short _ _ hshort]
      simp
  · rw [if_neg hovf]
    have hshort : msgR.length + FORMATTING_CHARS_LENGTH ≤ MAX_MESSAGE_LENGTH := by
      simp only [MAX_MESSAGE_LENGTH, FORMATTING_CHARS_LENGTH] at hovf ⊢
      omega
    rw [writeLoop_short _ _ hshort]
    refine ⟨⟨[], by simp, by simp⟩, ?_, fun hc _ => absurd hc hovf⟩
    simp only [List.length_append]
    simp only [MAX_MESSAGE_LENGTH, FORMATTING_CHARS_LENGTH] at hovf ⊢
    omega

/-- C4 witness: on a full buffer, an (empty) incoming message satisfies the
overflow condition and the amended theorem yields the reset-without-flush
result. -/
theorem c4_segmentation_witness :
    ((MAX_MESSAGE_LENGTH : Int) - FORMATTING_CHARS_LENGTH -
        fullStatus.buffered_text.length -
        (pyReplace ['z'] "<REDACTED>".data []).length ≤ 0) ∧
    StatusMessage.write ['z'] fullStatus [] =
      { buffered_text := pyReplace ['z'] "<REDACTED>".data []
        next_message := true, emitted := fullStatus.emitted } := by
  have hbuflen : fullStatus.buffered_text.length = 1988 := by
    simp only [fullStatus]
    exact List.length_replicate _ _
  have hovf : ((MAX_MESSAGE_LENGTH : Int) - FORMATTING_CHARS_LENGTH -
      fullStatus.buffered_text.length -
      (pyReplace ['z'] "<REDACTED>".data []).length ≤ 0) := by
    rw [pyReplace_nil, hbuflen]
    decide
  exact ⟨hovf, (c4_segmentation ['z'] fullStatus []).2.2 hovf
    (by rw [pyReplace_nil]; decide)⟩

theorem mem_insertUnique {α} [DecidableEq α] {xs : List α} {x y : α}
    (h : y ∈ insertUnique xs x) : y ∈ xs ∨ y = x := by
  unfold insertUnique at h
  split at h
  · exact .inl h
  · rcases List.mem_append.mp h with h | h
    · exact .inl h
    · exact .inr (List.mem_singleton.mp h)

theorem mem_insertUnique_self {α} [DecidableEq α] (xs : List α) (x : α) :
    x ∈ insertUnique xs x := by
  unfold insertUnique
  split
  · assumption
  · exact List.mem_append.mpr (.inr (List.mem_singleton.mpr rfl))

theorem mem_insertUnique_of_mem {α} [DecidableEq α] {xs : List α} {y : α} (x : α)
    (h : y ∈ xs) : y ∈ insertUnique xs x := by
  unfold insertUnique
  split
  · exact h
  · exact List.mem_append.mpr (.inl h)

theorem findPR_spec {db : Database} {repoId : String} {n : Nat}
    {pr : KnownPullRequest} (h : findPR db repoId n = some pr) :
    pr ∈ db.prs ∧ pr.repo_id = repoId ∧ pr.pull_request_id = n := by
  have h1 := List.mem_of_find?_eq_some h
  have h2 := List.find?_some h
  simp only [Bool.and_eq_true, beq_iff_eq] at h2
  exact ⟨h1, h2.1, h2.2⟩

theorem mem_foldl_collectStep (db : Database) (repoId : String)
    (keepTime : Int → Bool) (upstream : List KnownPullRequest) :
    ∀ (changes : List KnownFileChange) (acc : List KnownPullRequest)
      (pr : KnownPullRequest),
      pr ∈ changes.foldl (collectStep db repoId keepTime upstream) acc →
      pr ∈ acc ∨ (pr.merged = true ∧ keepTime pr.merged_at = true ∧
        pr ∉ upstream ∧
        ∃ c ∈ changes, findPR db repoId c.pull_request_id = some pr) := by
  intro changes
  induction changes with
  | nil => exact fun acc pr h => .inl h
  | cons c rest ih =>
    intro acc pr h
    rcases ih _ pr h with hmem | ⟨hm, hk, hu, c', hc', hfind⟩
    · unfold collectStep at hmem
      revert hmem
      cases hfp : findPR db repoId c.pull_request_id with
      | none => exact fun hmem => .inl hmem
      | some q =>
        intro hmem
        dsimp only at hmem
        by_cases h1 : !q.merged
        · rw [if_pos h1] at hmem; exact .inl hmem
        · rw [if_neg h1] at hmem
          by_cases h2 : !keepTime q.merged_at
          · rw [if_pos h2] at hmem; exact .inl hmem
          · rw [if_neg h2] at hmem
            by_cases h3 : q ∈ upstream
            · rw [if_pos h3] at hmem; exact .inl hmem
            · rw [if_neg h3] at hmem
              rcases mem_insertUnique hmem with hmem | rfl
              · exact .inl hmem
              · refine .inr ⟨?_, ?_, h3, c, List.mem_cons_self _ _, hfp⟩
                · simpa using h1
                · simpa using h2
    · exact .inr ⟨hm, hk, hu, c', List.mem_cons_of_mem _ hc', hfind⟩

theorem mem_collectRows {db : Database} {repoId : String} {seeds : List String}
    {keepTime : Int → Bool} {upstream : List KnownPullRequest}
    {pr : KnownPullRequest}
    (h : pr ∈ collectRows db repoId seeds keepTime upstream) :
    pr.merged = true ∧ keepTime pr.merged_at = true ∧ pr ∉ upstream ∧
    ∃ p ∈ seeds, ∃ c ∈ changesForPath db repoId p,
      findPR db repoId c.pull_request_id = some pr := by
  unfold collectRows at h
  suffices haux : ∀ (ss : List String) (acc : List KnownPullRequest),
      pr ∈ ss.foldl (fun acc p =>
        (changesForPath db repoId p).foldl
          (collectStep db repoId keepTime upstream) acc) acc →
      pr ∈ acc ∨ (pr.merged = true ∧ keepTime pr.merged_at = true ∧
        pr ∉ upstream ∧ ∃ p ∈ ss, ∃ c ∈ changesForPath db repoId p,
          findPR db repoId c.pull_request_id = some pr) by
    rcases haux seeds [] h with hmem | hr
    · exact absurd hmem (List.not_mem_nil _)
    · exact hr
  intro ss
  induction ss with
  | nil => exact fun acc h => .inl h
  | cons p rest ih =>
    intro acc h
    rcases ih _ h with hmem | ⟨hm, hk, hu, p', hp', c, hc, hfind⟩
    · rcases mem_foldl_collectStep db repoId keepTime upstream
          (changesForPath db repoId p) acc pr hmem with hmem | ⟨hm, hk, hu, c, hc, hfind⟩
      · exact .inl hmem
      · exact .inr ⟨hm, hk, hu, p, List.mem_cons_self _ _, c, hc, hfind⟩
    · exact .inr ⟨hm, hk, hu, p', List.mem_cons_of_mem _ hp', c, hc, hfind⟩

theorem mem_upstream_of_touches {db : Database} {repoId : String}
    {pr : KnownPullRequest}
    (hfind : findPR db repoId pr.pull_request_id = some pr)
    {c : KnownFileChange} (hc : c ∈ db.changes) (hrepo : c.repo_id = repoId)
    (hnum : c.pull_request_id = pr.pull_request_id)
    (hpath : c.file_path = changelogPath) :
    pr ∈ get_upstream_merge_prs db repoId := by
  unfold get_upstream_merge_prs
  refine List.mem_filterMap.mpr ⟨c, List.mem_filter.mpr ⟨hc, ?_⟩, ?_⟩
  · simp [hpath, hrepo]
  · rw [hnum]; exact hfind

theorem pairwise_sortByMergedAt (rows : List KnownPullRequest) :
    (sortByMergedAt rows).Pairwise (fun a b => a.merged_at ≤ b.merged_at) := by
  have h := @List.sorted_mergeSort KnownPullRequest
    (fun a b => a.merged_at ≤ b.merged_at)
    (fun a b c hab hbc => by
      simp only [decide_eq_true_eq] at *
      omega)
    (fun a b => by
      simp only [Bool.or_eq_true, decide_eq_true_eq]
      omega) rows
  exact h.imp (fun hab => by simpa using hab)

/-- C8: under an index that is consistent with the seed change's forge
metadata (its row, if present, carries the same merged flag and merge
time), the ancestor query never returns the seed itself, never returns an
unmerged change, never returns a change merged at or after the seed's
reference time, excludes every change touching the upstream-merge marker
path, and its results are sorted ascending by merge time. -/
theorem c8_ancestor_query (db : Database) (repoId : String) (median : GithubPR)
    (hcons : ∀ row ∈ db.prs, row.repo_id = repoId →
      row.pull_request_id = median.number →
      row.merged = median.merged ∧ row.merged_at = median.merged_at) :
    (∀ pr ∈ ancestorRows db repoId median,
      pr.merged = true ∧
      pr.merged_at < referenceTime median ∧
      pr.pull_request_id ≠ median.number ∧
      ∀ c ∈ db.changes, c.repo_id = repoId →
        c.pull_request_id = pr.pull_request_id → c.file_path ≠ changelogPath) ∧
    (ancestorRows db repoId median).Pairwise
      (fun a b => a.merged_at ≤ b.merged_at) := by
  constructor
  · intro pr hpr
    rw [ancestorRows] at hpr
    unfold sortByMergedAt at hpr
    have hpr' := List.mem_mergeSort.mp hpr
    obtain ⟨hm, hk, hu, p, hp, c, hc, hfind⟩ := mem_collectRows hpr'
    obtain ⟨hmem, hrepo, hnum⟩ := findPR_spec hfind
    have hfind' : findPR db repoId pr.pull_request_id = some pr := by
      rw [hnum]; exact hfind
    have hkeep : pr.merged_at < referenceTime median := by
      simp only [Bool.not_eq_true', decide_eq_false_iff_not, not_le] at hk
      exact hk
    refine ⟨hm, hkeep, ?_, ?_⟩
    · intro heq
      obtain ⟨hcm, hct⟩ := hcons pr hmem hrepo heq
      by_cases hmed : median.merged
      · rw [referenceTime, if_pos hmed, ← hct] at hkeep
        omega
      · rw [hm] at hcm
        exact hmed hcm.symm
    · intro c' hc' hrepo' hnum' hpath'
      exact hu (mem_upstream_of_touches hfind' hc' hrepo' hnum' hpath')
  · exact pairwise_sortByMergedAt _

/-- C8 witness: on a five-row index (one in-range ancestor, one too-late
change, one unmerged change, one upstream-merge marker change, and the
seed's own row), the consistency hypothesis holds and the theorem applies. -/
theorem c8_ancestor_query_witness :
    (∀ row ∈ c8Db.prs, row.repo_id = "org/repo" →
      row.pull_request_id = c8Median.number →
      row.merged = c8Median.merged ∧ row.merged_at = c8Median.merged_at) ∧
    ((∀ pr ∈ ancestorRows c8Db "org/repo" c8Median,
      pr.merged = true ∧
      pr.merged_at < referenceTime c8Median ∧
      pr.pull_request_id ≠ c8Median.number ∧
      ∀ c ∈ c8Db.changes, c.repo_id = "org/repo" →
        c.pull_request_id = pr.pull_request_id → c.file_path ≠ changelogPath) ∧
    (ancestorRows c8Db "org/repo" c8Median).Pairwise
      (fun a b => a.merged_at ≤ b.merged_at)) :=
  ⟨by decide, c8_ancestor_query c8Db "org/repo" c8Median (by decide)⟩

theorem seedFold_mono (files : List FileEntry) :
    ∀ (acc : List String) (x : String), x ∈ acc →
      x ∈ files.foldl (fun acc f =>
        if f.status ∈ ["added"] then insertUnique acc f.filename else acc) acc := by
  induction files with
  | nil => exact fun acc x h => h
  | cons g rest ih =>
    intro acc x h
    apply ih
    dsimp only
    split
    · exact mem_insertUnique_of_mem _ h
    · exact h

theorem seedFold_complete (files : List FileEntry) :
    ∀ (acc : List String), ∀ f ∈ files, f.status = "added" →
      f.filename ∈ files.foldl (fun acc f =>
        if f.status ∈ ["added"] then insertUnique acc f.filename else acc) acc := by
  induction files with
  | nil =>
    intro acc f h
    exact absurd h (List.not_mem_nil _)
  | cons g rest ih =>
    intro acc f hf hstatus
    rcases List.mem_cons.mp hf with rfl | hf
    · rw [List.foldl_cons]
      apply seedFold_mono
      dsimp only
      rw [if_pos (by simp [hstatus])]
      exact mem_insertUnique_self _ _
    · exact ih _ f hf hstatus

/-- C3: the descendant query is not the exact dual of the ancestor query:
`get_descendants` applies no `HIGH_FREQUENCY_FILES` exclusion when
collecting seed paths, so a seed change that added only the high-churn path
`Resources/Prototypes/tags.yml` yields a descendant that the claimed dual
(with the ancestor query's exclusion rules) would not return. -/
theorem c3_counterexample :
    get_descendants c3Db "org/repo" c3Median = ["#9 - later change"] ∧
    descendants_claimed c3Db "org/repo" c3Median = [] ∧
    get_descendants c3Db "org/repo" c3Median ≠
      descendants_claimed c3Db "org/repo" c3Median := by
  have hrow : collectRows c3Db "org/repo" (descendantSeedPaths c3Median)
      (fun mergedAt => !(mergedAt ≤ referenceTime c3Median))
      (get_upstream_merge_prs c3Db "org/repo") =
      [{ pull_request_id := 9, repo_id := "org/repo", title := "later change",
         merged := true, created_at := 50, merged_at := 100 }] := by
    decide
  have hclaimrow : collectRows c3Db "org/repo"
      (c3Median.files.foldl
        (fun acc f =>
          if f.filename ∈ HIGH_FREQUENCY_FILES then acc
          else if f.status ∈ ["added"] then insertUnique acc f.filename
          else acc) [])
      (fun mergedAt => referenceTime c3Median < mergedAt)
      (get_upstream_merge_prs c3Db "org/repo") = [] := by
    decide
  have h1 : get_descendants c3Db "org/repo" c3Median = ["#9 - later change"] := by
    rw [get_descendants, descendantRows, sortByMergedAt, hrow,
      List.mergeSort_singleton]
    decide
  have h2 : descendants_claimed c3Db "org/repo" c3Median = [] := by
    rw [descendants_claimed, sortByMergedAt, hclaimrow, List.mergeSort_nil]
    rfl
  refine ⟨h1, h2, ?_⟩
  rw [h1, h2]
  decide

/-- C3 (amended): the descendant query is the dual of the ancestor query
except that it applies no high-churn exclusion to its seed paths: every
file the seed change added seeds the query (high-churn paths included);
every returned change is merged, merged strictly after the seed's reference
time, touches a seeded path (by current or previous name), is not an
upstream-merge marker change, and the results are sorted ascending by merge
time. -/
theorem c3_descendant_query (db : Database) (repoId : String)
    (median : GithubPR) :
    (∀ pr ∈ descendantRows db repoId median,
      pr.merged = true ∧
      referenceTime median < pr.merged_at ∧
      (∀ c ∈ db.changes, c.repo_id = repoId →
        c.pull_request_id = pr.pull_request_id → c.file_path ≠ changelogPath) ∧
      ∃ p ∈ descendantSeedPaths median, ∃ c ∈ changesForPath db repoId p,
        findPR db repoId c.pull_request_id = some pr) ∧
    (∀ f ∈ median.files, f.status = "added" →
      f.filename ∈ descendantSeedPaths median) ∧
    (descendantRows db repoId median).Pairwise
      (fun a b => a.merged_at ≤ b.merged_at) := by
  refine ⟨?_, ?_, pairwise_sortByMergedAt _⟩
  · intro pr hpr
    rw [descendantRows] at hpr
    unfold sortByMergedAt at hpr
    have hpr' := List.mem_mergeSort.mp hpr
    obtain ⟨hm, hk, hu, p, hp, c, hc, hfind⟩ := mem_collectRows hpr'
    obtain ⟨hmem, hrepo, hnum⟩ := findPR_spec hfind
    have hfind' : findPR db repoId pr.pull_request_id = some pr := by
      rw [hnum]; exact hfind
    have hkeep : referenceTime median < pr.merged_at := by
      simp only [Bool.not_eq_true', decide_eq_false_iff_not, not_le] at hk
      exact hk
    refine ⟨hm, hkeep, ?_, p, hp, c, hc, hfind⟩
    intro c' hc' hrepo' hnum' hpath'
    exact hu (mem_upstream_of_touches hfind' hc' hrepo' hnum' hpath')
  · intro f hf hstatus
    unfold descendantSeedPaths
    exact seedFold_complete median.files [] f hf hstatus

/-- C3 witness: on an index where the seed change #11 added `b.txt` and the
later-merged change #12 touches it, the descendant query returns
`["#12 - desc"]` and the amended properties hold at this instance. -/
theorem c3_descendant_query_witness :
    get_descendants c3WitnessDb "org/repo" c3WitnessMedian = ["#12 - desc"] ∧
    ((∀ pr ∈ descendantRows c3WitnessDb "org/repo" c3WitnessMedian,
      pr.merged = true ∧
      referenceTime c3WitnessMedian < pr.merged_at ∧
      (∀ c ∈ c3WitnessDb.changes, c.repo_id = "org/repo" →
        c.pull_request_id = pr.pull_request_id → c.file_path ≠ changelogPath) ∧
      ∃ p ∈ descendantSeedPaths c3WitnessMedian,
        ∃ c ∈ changesForPath c3WitnessDb "org/repo" p,
          findPR c3WitnessDb "org/repo" c.pull_request_id = some pr) ∧
    (∀ f ∈ c3WitnessMedian.files, f.status = "added" →
      f.filename ∈ descendantSeedPaths c3WitnessMedian) ∧
    (descendantRows c3WitnessDb "org/repo" c3WitnessMedian).Pairwise
      (fun a b => a.merged_at ≤ b.merged_at)) := by
  refine ⟨?_, c3_descendant_query c3WitnessDb "org/repo" c3WitnessMedian⟩
  have hrow : collectRows c3WitnessDb "org/repo"
      (descendantSeedPaths c3WitnessMedian)
      (fun mergedAt => !(mergedAt ≤ referenceTime c3WitnessMedian))
      (get_upstream_merge_prs c3WitnessDb "org/repo") =
      [{ pull_request_id := 12, repo_id := "org/repo", title := "desc",
         merged := true, created_at := 30, merged_at := 40 }] := by
    decide
  rw [get_descendants, descendantRows, sortByMergedAt, hrow,
    List.mergeSort_singleton]
  decide

end Morticia
